import Mathlib

/-!
Verification of the zipfs archive-backed virtual filesystem and
content-delivery layer.  The definitions below are a shallow embedding of
the Go sources (main.go and the unnamed variant): bytes are modelled as
natural numbers below 256, Go strings as Lean strings (lists of
characters for the path algorithms), machine integers as Nat or Int with
explicit reductions modulo 2^32 where the code converts to uint32, and
the two mutable shared structures (the mime cache and the archive
registry) as explicit two-thread step machines.
-/

set_option maxRecDepth 10000

/-- Go byte-lexicographic string comparison (for ASCII and, by the order
isomorphism of UTF-8, general text), used by the sort in initFileList. -/
def strLess : List Char → List Char → Bool
  | [], [] => false
  | [], _ :: _ => true
  | _ :: _, [] => false
  | a :: as, b :: bs => if a = b then strLess as bs else decide (a.toNat < b.toNat)

/-- strings.Contains: the needle occurs as a contiguous substring of the
haystack.  Models the Accept-Encoding check in SendFile / RespondWith. -/
def containsSub (hay needle : List Char) : Bool :=
  match hay with
  | [] => needle.isEmpty
  | _ :: rest => needle.isPrefixOf hay || containsSub rest needle

/-- binary.Write with binary.LittleEndian of a uint32 value: the four
little-endian bytes of n modulo 2^32. -/
def u32le (n : Nat) : List Nat :=
  [n % 256, n / 256 % 256, n / 65536 % 256, n / 16777216 % 256]

/-- Go conversion uint32(m) of a signed 64-bit integer m: two's-complement
truncation, i.e. the representative of m modulo 2^32 in [0, 2^32). -/
def goUint32OfInt (m : Int) : Nat :=
  (m % (4294967296 : Int)).toNat

/-- One backtracking scan of path.Clean: after removing the last byte of
the output buffer, keep shrinking while above the dotdot mark and the byte
at the new write position is not a slash.  Returns the final length. -/
def cbGo : Nat → List Char → Nat → Nat → Nat
  | 0, _, _, w => w
  | fuel + 1, out, dotdot, w =>
    if w > dotdot ∧ ¬ (out.get? w = some '/') then cbGo fuel out dotdot (w - 1)
    else w

/-- The ".." backtracking step of path.Clean on the output buffer. -/
def cleanBacktrack (out : List Char) (dotdot : Nat) : List Char :=
  let w := out.length - 1
  out.take (cbGo (w + 1) out dotdot w)

/-- Main loop of Go path.Clean over the remaining input, carrying the
output buffer and the dotdot mark.  Fuel is the input length plus one;
every iteration consumes at least one input character. -/
def cleanLoop : Nat → Bool → List Char → List Char → Nat → List Char
  | 0, _, _, out, _ => out
  | fuel + 1, rooted, rest, out, dotdot =>
    match rest with
    | [] => out
    | c :: cs =>
      if c = '/' then
        cleanLoop fuel rooted cs out dotdot
      else if c = '.' ∧ (cs = [] ∨ cs.head? = some '/') then
        cleanLoop fuel rooted cs out dotdot
      else if c = '.' ∧ cs.head? = some '.' ∧ (cs.drop 1 = [] ∨ (cs.drop 1).head? = some '/') then
        let rest' := cs.drop 1
        if out.length > dotdot then
          cleanLoop fuel rooted rest' (cleanBacktrack out dotdot) dotdot
        else if ¬ rooted then
          let out1 := if out.length > 0 then out ++ ['/'] else out
          let out2 := out1 ++ ['.', '.']
          cleanLoop fuel rooted rest' out2 out2.length
        else
          cleanLoop fuel rooted rest' out dotdot
      else
        let out1 := if (rooted ∧ ¬ out.length = 1) ∨ (¬ rooted ∧ ¬ out.length = 0)
          then out ++ ['/'] else out
        let elemN := (c :: cs).takeWhile (fun x => ¬ (x = '/'))
        let rest' := (c :: cs).dropWhile (fun x => ¬ (x = '/'))
        cleanLoop fuel rooted rest' (out1 ++ elemN) dotdot

/-- Go path.Clean, lazybuf algorithm, over a character list. -/
def pathCleanL (p : List Char) : List Char :=
  if p = [] then ['.']
  else
    let rooted := p.head? = some '/'
    let out0 : List Char := if rooted then ['/'] else []
    let dd := if rooted then 1 else 0
    let rest := if rooted then p.drop 1 else p
    let out := cleanLoop (rest.length + 1) rooted rest out0 dd
    if out = [] then ['.'] else out

/-- Go path.Dir: everything up to and including the final slash, cleaned;
"." when there is no slash. -/
def goPathDirL (p : List Char) : List Char :=
  let base := (p.reverse.takeWhile (fun c => ¬ (c = '/'))).reverse
  pathCleanL (p.take (p.length - base.length))

/-- Go path.Join of two elements: empty elements are skipped and the
concatenation is cleaned; the join of two empty strings is empty. -/
def goPathJoin (a b : String) : String :=
  if a.data = [] ∧ b.data = [] then String.mk []
  else
    let buf := a.data
    let buf := if buf.length > 0 ∨ ¬ (b.data = []) then
        (if buf.length > 0 then buf ++ ['/'] else buf) ++ b.data
      else buf
    String.mk (pathCleanL buf)

/-- The loop in archive/zip toValidName that strips leading "../"
components after cleaning.  Fuel bounds the number of strips. -/
def stripDotDot : Nat → List Char → List Char
  | 0, p => p
  | fuel + 1, p =>
    if p.take 3 = ['.', '.', '/'] then stripDotDot fuel (p.drop 3) else p

/-- archive/zip toValidName: backslashes become slashes, the path is
cleaned, a leading slash is removed and leading "../" are stripped. -/
def toValidNameL (s : List Char) : List Char :=
  let s1 := s.map (fun c => if c = '\\' then '/' else c)
  let p := pathCleanL s1
  let p := if p.head? = some '/' then p.drop 1 else p
  stripDotDot (p.length + 1) p

/-- archive/zip split: strip one trailing slash, then break at the final
slash into directory and element; the directory is "." when there is no
slash. -/
def zipSplitD (name : List Char) : List Char × List Char :=
  let n := if name.getLast? = some '/' then name.dropLast else name
  let elemN := (n.reverse.takeWhile (fun c => ¬ (c = '/'))).reverse
  if elemN.length = n.length then (['.'], n)
  else (n.take (n.length - elemN.length - 1), elemN)

/-- archive/zip fileEntryLess: lexicographic on the (directory, element)
pair produced by split. -/
def fileEntryLess (x y : List Char) : Bool :=
  let px := zipSplitD x
  let py := zipSplitD y
  strLess px.1 py.1 || (px.1 == py.1 && strLess px.2 py.2)

/-- Loop body of io/fs ValidPath: each slash-separated element must be
nonempty and differ from "." and "..".  Fuel is the list length plus one;
each iteration consumes at least one character. -/
def validPathCore : Nat → List Char → Bool
  | 0, _ => false
  | _ + 1, [] => false
  | fuel + 1, l =>
    let elemN := l.takeWhile (fun c => ¬ (c = '/'))
    let rest := l.dropWhile (fun c => ¬ (c = '/'))
    if elemN = [] ∨ elemN = ['.'] ∨ elemN = ['.', '.'] then false
    else match rest with
      | [] => true
      | _ :: rs => validPathCore fuel rs

/-- io/fs ValidPath as used by zip Reader.Open: "." is valid, otherwise
every path element must be a real name. -/
def goValidPath (s : String) : Bool :=
  if s.data = ['.'] then true else validPathCore (s.data.length + 1) s.data

/-- strings.Trim of the "/" cutset: remove leading and trailing slashes. -/
def goTrimSlash (s : String) : String :=
  String.mk (((s.data.dropWhile (fun c => c = '/')).reverse.dropWhile (fun c => c = '/')).reverse)

/-- strings.HasSuffix of "/": the path ends with a slash. -/
def goHasSuffixSlash (s : String) : Bool :=
  s.data.getLast? = some '/'

/-- Error message used when zip Reader.Open cannot resolve a name (the
fs.ErrNotExist / fs.ErrInvalid cases are both surfaced per-request as a
not-found response by the callers). -/
def errNotExist : String := "file does not exist"

/-- The literal body of the erroneous-trailing-slash response written by
ServeHTTP in the unnamed variant. -/
def notFoundMsg : String := "not found"

/-- Model of a zip.File central-directory entry: the metadata fields the
server reads, the raw still-compressed payload that OpenRaw yields, the
decompressed content that Open yields, and whether OpenRaw fails. -/
structure GoZipFile where
  name : String
  method : Nat
  crc32 : Nat
  uncompressedSize64 : Nat
  modifiedUnix : Int
  raw : List Nat
  content : List Nat
  rawOpenErr : Option String
deriving Repr, DecidableEq

/-- zip.Deflate. -/
def methodDeflate : Nat := 8

/-- archive/zip fileListEntry: a normalized name, an optional pointer to
the backing zip.File (modelled as its index in the archive's File list;
none for synthesized directories and the root), and the directory flag. -/
structure FileListEntry where
  name : List Char
  file : Option Nat
  isDir : Bool
deriving Repr, DecidableEq

/-- archive/zip dotFile: the synthetic root directory entry returned for
the name ".". -/
def dotFile : FileListEntry :=
  { name := ['.', '/'], file := none, isDir := true }

/-- Accumulator of the initFileList loop: the entries built so far, the
names already claimed by files and by explicit directories, and the set of
ancestor directory names to synthesize. -/
structure BuildSt where
  fl : List FileListEntry
  fileNames : List (List Char)
  dirNames : List (List Char)
  dirs : List (List Char)
deriving Repr

/-- Insert a name into the dirs set once (Go uses a map as a set). -/
def insertUniq (d : List Char) (acc : List (List Char)) : List (List Char) :=
  if d ∈ acc then acc else acc ++ [d]

/-- The ancestor-recording loop of initFileList: walk path.Dir upward
until ".".  Fuel bounds the walk; each step shortens the path, so the
starting name's length plus one is ample. -/
def ancestorDirs : Nat → List Char → List (List Char) → List (List Char)
  | 0, _, acc => acc
  | fuel + 1, d, acc =>
    if d = ['.'] then acc else ancestorDirs fuel (goPathDirL d) (insertUniq d acc)

/-- One iteration of the initFileList loop for the archive entry with
index i: directory-ness from the trailing slash of the original name,
normalization, duplicate suppression (the Go code additionally marks the
earlier entry as a duplicate, which only affects Stat), ancestor
recording, and the append of the entry carrying its backing file. -/
def buildStep (st : BuildSt) (p : Nat × GoZipFile) : BuildSt :=
  let i := p.1
  let f := p.2
  let isDir := f.name.data.getLast? = some '/'
  let name := toValidNameL f.name.data
  if name = [] then st
  else if name ∈ st.fileNames ∨ name ∈ st.dirNames then st
  else
    { fl := st.fl ++ [{ name := name, file := some i, isDir := isDir }]
      fileNames := if isDir then st.fileNames else name :: st.fileNames
      dirNames := if isDir then name :: st.dirNames else st.dirNames
      dirs := ancestorDirs (name.length + 1) (goPathDirL name) st.dirs }

/-- The initFileList loop over all archive entries, paired with their
indices (pointer identity of the zip.File values). -/
def buildFold (files : List GoZipFile) : BuildSt :=
  files.enum.foldl buildStep { fl := [], fileNames := [], dirNames := [], dirs := [] }

/-- Directory synthesis of initFileList: every recorded ancestor not
explicitly present becomes a directory entry with a trailing-slash name
and no backing file.  (When a file claims the directory's name the Go
code only marks that file entry as a duplicate.) -/
def synthDirs (st : BuildSt) : List FileListEntry :=
  st.dirs.filterMap (fun d =>
    if d ∈ st.dirNames then none
    else if d ∈ st.fileNames then none
    else some { name := d ++ ['/'], file := none, isDir := true })

/-- Insertion into a list sorted by the given total preorder. -/
def insertLe (le : FileListEntry → FileListEntry → Bool) (a : FileListEntry) :
    List FileListEntry → List FileListEntry
  | [] => [a]
  | b :: bs => if le a b then a :: b :: bs else b :: insertLe le a bs

/-- The comparison used by sort.Slice in initFileList, as a preorder. -/
def flLe (a b : FileListEntry) : Bool :=
  ! fileEntryLess b.name a.name

/-- The final sort of initFileList (the built names are pairwise distinct
in their sort keys, so any comparison sort produces this order). -/
def sortFL (l : List FileListEntry) : List FileListEntry :=
  l.foldr (insertLe flLe) []

/-- archive/zip initFileList: loop, directory synthesis, sort. -/
def fileListOf (files : List GoZipFile) : List FileListEntry :=
  let st := buildFold files
  sortFL (st.fl ++ synthDirs st)

/-- The sort.Search predicate of openLookup: entry at or after the
(dir, elem) target in the split order. -/
def searchGE (dir elemN : List Char) (e : FileListEntry) : Bool :=
  let pe := zipSplitD e.name
  strLess dir pe.1 || (pe.1 == dir && ! strLess pe.2 elemN)

/-- archive/zip openLookup: "." resolves to the synthetic root, otherwise
binary search (modelled as the first entry at or after the target in the
sorted list) followed by the exact-name or trailing-slash-name check. -/
def openLookup (fl : List FileListEntry) (name : List Char) : Option FileListEntry :=
  if name = ['.'] then some dotFile
  else
    let pr := zipSplitD name
    match fl.find? (searchGE pr.1 pr.2) with
    | none => none
    | some e =>
      if e.name = name ∨
          (e.name.length = name.length + 1 ∧ e.name.getLast? = some '/' ∧
            e.name.take name.length = name) then some e
      else none

/-- The result of FindRaw / Find: the fs.File handle's directory-ness
(whether it is an fs.ReadDirFile) together with the raw zip.File pointer
recovered by reflection, which is absent exactly when the handle is the
root or a synthesized directory. -/
structure ZipEntry where
  isDir : Bool
  meta : Option Nat
deriving Repr, DecidableEq

/-- FindRaw / zipFS.Find: zip Reader.Open (ValidPath check, lookup,
directory or file handle) followed by reflection extracting the backing
zip.File.  For a non-directory entry Open dereferences the backing file;
the c10 theorem below shows that pointer is always present there. -/
def findRaw (files : List GoZipFile) (name : String) : Except String ZipEntry :=
  if ¬ goValidPath name then Except.error errNotExist
  else
    match openLookup (fileListOf files) name.data with
    | none => Except.error errNotExist
    | some e => Except.ok { isDir := e.isDir, meta := e.file }

/-- Go filepath.Ext scan helper over the reversed name: collect until the
first dot, stopping at a path separator. -/
def extRev : List Char → List Char → Option (List Char)
  | [], _ => none
  | c :: cs, acc =>
    if c = '/' then none
    else if c = '.' then some (c :: acc)
    else extRev cs (c :: acc)

/-- Go filepath.Ext: the suffix starting at the final dot of the last
path element, or the empty string. -/
def filepathExt (s : String) : String :=
  match extRev s.data.reverse [] with
  | some l => String.mk l
  | none => String.mk []

/-- ASCII lowercasing as done byte-wise by mime.TypeByExtension. -/
def lowerChar (c : Char) : Char :=
  if 'A' ≤ c ∧ c ≤ 'Z' then Char.ofNat (c.toNat + 32) else c

/-- The builtin extension table of the Go mime package (the process may
additionally load system tables; the builtin entries model the portable
behavior the server relies on). -/
def builtinTypesLower : List (String × String) := [
  (".avif", "image/avif"),
  (".css", "text/css; charset=utf-8"),
  (".gif", "image/gif"),
  (".htm", "text/html; charset=utf-8"),
  (".html", "text/html; charset=utf-8"),
  (".jpeg", "image/jpeg"),
  (".jpg", "image/jpeg"),
  (".js", "text/javascript; charset=utf-8"),
  (".json", "application/json"),
  (".mjs", "text/javascript; charset=utf-8"),
  (".pdf", "application/pdf"),
  (".png", "image/png"),
  (".svg", "image/svg+xml"),
  (".wasm", "application/wasm"),
  (".webp", "image/webp"),
  (".xml", "text/xml; charset=utf-8")]

/-- mime.TypeByExtension restricted to the builtin table: case-insensitive
lookup of the extension, empty string on a miss. -/
def mimeTypeByExt (ext : String) : String :=
  let l := String.mk (ext.data.map lowerChar)
  match builtinTypesLower.lookup l with
  | some t => t
  | none => String.mk []

/-- net/http sniff whitespace bytes. -/
def isWS (b : Nat) : Bool :=
  b = 9 ∨ b = 10 ∨ b = 12 ∨ b = 13 ∨ b = 32

/-- net/http sniff tag-terminating bytes. -/
def isTT (b : Nat) : Bool :=
  b = 32 ∨ b = 62

/-- Signature shapes of net/http sniffSignatures. -/
inductive SniffSig where
  | htmlS (sig : List Nat)
  | maskedS (mask pat : List Nat) (skipWS : Bool) (ct : String)
  | exactS (sig : List Nat) (ct : String)
  | mp4S
  | textS
deriving Repr

/-- Case-folding comparison loop of htmlSig.match: uppercase signature
bytes fold the data byte with the 0xDF mask.  Returns the data remaining
after the signature on success. -/
def htmlMatchCore : List Nat → List Nat → Option (List Nat)
  | [], rest => some rest
  | _ :: _, [] => none
  | b :: bs, d :: ds =>
    let db := if 65 ≤ b ∧ b ≤ 90 then d &&& 223 else d
    if db = b then htmlMatchCore bs ds else none

/-- htmlSig.match: the signature followed by a tag-terminating byte, on
the whitespace-trimmed data. -/
def htmlMatch (sig : List Nat) (trimmed : List Nat) : Option String :=
  match htmlMatchCore sig trimmed with
  | none => none
  | some rest =>
    match rest with
    | [] => none
    | t :: _ => if isTT t then some "text/html; charset=utf-8" else none

/-- Byte-wise masked comparison of maskedSig.match. -/
def maskedCore : List Nat → List Nat → List Nat → Bool
  | [], _, _ => true
  | _ :: _, _, [] => false
  | _ :: _, [], _ => false
  | p :: ps, m :: ms, d :: ds => (d &&& m = p) && maskedCore ps ms ds

/-- maskedSig.match: optional whitespace skip, length guards, then the
masked comparison. -/
def maskedMatch (mask pat : List Nat) (skipWS : Bool) (ct : String)
    (data trimmed : List Nat) : Option String :=
  let d := if skipWS then trimmed else data
  if ¬ pat.length = mask.length then none
  else if d.length < pat.length then none
  else if maskedCore pat mask d then some ct else none

/-- exactSig.match: prefix comparison on the untrimmed data. -/
def exactMatch (sig : List Nat) (ct : String) (data : List Nat) : Option String :=
  if sig.isPrefixOf data then some ct else none

/-- big-endian uint32 of the first four bytes. -/
def be32 : List Nat → Nat
  | a :: b :: c :: d :: _ => ((a * 256 + b) * 256 + c) * 256 + d
  | _ => 0

/-- Scan loop of mp4Sig.match over the box, stepping four bytes at a
time and skipping the major-brand version word at offset 12. -/
def mp4Scan : Nat → Nat → Nat → List Nat → Option String
  | 0, _, _, _ => none
  | fuel + 1, st, boxSize, data =>
    if st < boxSize then
      if st = 12 then mp4Scan fuel (st + 4) boxSize data
      else if (data.drop st).take 3 = [109, 112, 52] then some "video/mp4"
      else mp4Scan fuel (st + 4) boxSize data
    else none

/-- mp4Sig.match of net/http sniff. -/
def mp4Match (data : List Nat) : Option String :=
  if data.length < 12 then none
  else
    let boxSize := be32 data
    if data.length < boxSize ∨ ¬ boxSize % 4 = 0 then none
    else if ¬ ((data.drop 4).take 4 = [102, 116, 121, 112]) then none
    else mp4Scan (boxSize + 1) 8 boxSize data

/-- A byte that the text heuristic considers binary. -/
def isBinaryByte (b : Nat) : Bool :=
  b ≤ 8 ∨ b = 11 ∨ (14 ≤ b ∧ b ≤ 26) ∨ (28 ≤ b ∧ b ≤ 31)

/-- textSig.match: the whitespace-trimmed data holds no binary byte. -/
def textMatch (trimmed : List Nat) : Option String :=
  if trimmed.any isBinaryByte then none else some "text/plain; charset=utf-8"

/-- Dispatch one signature. -/
def sigMatch (s : SniffSig) (data trimmed : List Nat) : Option String :=
  match s with
  | SniffSig.htmlS sig => htmlMatch sig trimmed
  | SniffSig.maskedS mask pat skipWS ct => maskedMatch mask pat skipWS ct data trimmed
  | SniffSig.exactS sig ct => exactMatch sig ct data
  | SniffSig.mp4S => mp4Match data
  | SniffSig.textS => textMatch trimmed

/-- net/http sniffSignatures, in evaluation order.  Text signatures are
written as their ASCII byte codes; the trailing comments give the text. -/
def sniffSignatures : List SniffSig := [
  SniffSig.htmlS [60, 33, 68, 79, 67, 84, 89, 80, 69, 32, 72, 84, 77, 76], -- <!DOCTYPE HTML
  SniffSig.htmlS [60, 72, 84, 77, 76],                                     -- <HTML
  SniffSig.htmlS [60, 72, 69, 65, 68],                                     -- <HEAD
  SniffSig.htmlS [60, 83, 67, 82, 73, 80, 84],                             -- <SCRIPT
  SniffSig.htmlS [60, 73, 70, 82, 65, 77, 69],                             -- <IFRAME
  SniffSig.htmlS [60, 72, 49],                                             -- <H1
  SniffSig.htmlS [60, 68, 73, 86],                                         -- <DIV
  SniffSig.htmlS [60, 70, 79, 78, 84],                                     -- <FONT
  SniffSig.htmlS [60, 84, 65, 66, 76, 69],                                 -- <TABLE
  SniffSig.htmlS [60, 65],                                                 -- <A
  SniffSig.htmlS [60, 83, 84, 89, 76, 69],                                 -- <STYLE
  SniffSig.htmlS [60, 84, 73, 84, 76, 69],                                 -- <TITLE
  SniffSig.htmlS [60, 66],                                                 -- <B
  SniffSig.htmlS [60, 66, 79, 68, 89],                                     -- <BODY
  SniffSig.htmlS [60, 66, 82],                                             -- <BR
  SniffSig.htmlS [60, 80],                                                 -- <P
  SniffSig.htmlS [60, 33, 45, 45],                                         -- <!--
  SniffSig.maskedS [255, 255, 255, 255, 255] [60, 63, 120, 109, 108] true
    "text/xml; charset=utf-8",                                             -- <?xml, skip WS
  SniffSig.exactS [37, 80, 68, 70, 45] "application/pdf",                  -- %PDF-
  SniffSig.exactS [37, 33, 80, 83, 45, 65, 100, 111, 98, 101, 45]
    "application/postscript",                                              -- %!PS-Adobe-
  SniffSig.maskedS [255, 255, 0, 0] [254, 255, 0, 0] false
    "text/plain; charset=utf-16be",
  SniffSig.maskedS [255, 255, 0, 0] [255, 254, 0, 0] false
    "text/plain; charset=utf-16le",
  SniffSig.maskedS [255, 255, 255, 0] [239, 187, 191, 0] false
    "text/plain; charset=utf-8",
  SniffSig.exactS [0, 0, 1, 0] "image/x-icon",
  SniffSig.exactS [0, 0, 2, 0] "image/x-icon",
  SniffSig.exactS [66, 77] "image/bmp",                                    -- BM
  SniffSig.exactS [71, 73, 70, 56, 55, 97] "image/gif",                    -- GIF87a
  SniffSig.exactS [71, 73, 70, 56, 57, 97] "image/gif",                    -- GIF89a
  SniffSig.maskedS [255, 255, 255, 255, 0, 0, 0, 0, 255, 255, 255, 255, 255, 255]
    [82, 73, 70, 70, 0, 0, 0, 0, 87, 69, 66, 80, 86, 80] false
    "image/webp",                                                          -- RIFF....WEBPVP
  SniffSig.exactS [137, 80, 78, 71, 13, 10, 26, 10] "image/png",
  SniffSig.exactS [255, 216, 255] "image/jpeg",
  SniffSig.maskedS [255, 255, 255, 255] [46, 115, 110, 100] false
    "audio/basic",                                                         -- .snd
  SniffSig.maskedS [255, 255, 255, 255, 0, 0, 0, 0, 255, 255, 255, 255]
    [70, 79, 82, 77, 0, 0, 0, 0, 65, 73, 70, 70] false
    "audio/aiff",                                                          -- FORM....AIFF
  SniffSig.maskedS [255, 255, 255] [73, 68, 51] false
    "audio/mpeg",                                                          -- ID3
  SniffSig.maskedS [255, 255, 255, 255, 255] [79, 103, 103, 83, 0] false
    "application/ogg",                                                     -- OggS.
  SniffSig.maskedS [255, 255, 255, 255, 255, 255, 255, 255]
    [77, 84, 104, 100, 0, 0, 0, 6] false
    "audio/midi",                                                          -- MThd....
  SniffSig.maskedS [255, 255, 255, 255, 0, 0, 0, 0, 255, 255, 255, 255]
    [82, 73, 70, 70, 0, 0, 0, 0, 65, 86, 73, 32] false
    "video/avi",                                                           -- RIFF....AVI
  SniffSig.maskedS [255, 255, 255, 255, 0, 0, 0, 0, 255, 255, 255, 255]
    [82, 73, 70, 70, 0, 0, 0, 0, 87, 65, 86, 69] false
    "audio/wave",                                                          -- RIFF....WAVE
  SniffSig.mp4S,
  SniffSig.exactS [26, 69, 223, 163] "video/webm",
  SniffSig.maskedS
    [0, 0, 0, 0, 0, 0, 0, 0, 0, 0, 0, 0, 0, 0, 0, 0, 0,
     0, 0, 0, 0, 0, 0, 0, 0, 0, 0, 0, 0, 0, 0, 0, 0, 0, 255, 255]
    [0, 0, 0, 0, 0, 0, 0, 0, 0, 0, 0, 0, 0, 0, 0, 0, 0,
     0, 0, 0, 0, 0, 0, 0, 0, 0, 0, 0, 0, 0, 0, 0, 0, 0, 76, 80] false
    "application/vnd.ms-fontobject",                                       -- 34 NULs then LP
  SniffSig.exactS [0, 1, 0, 0] "font/ttf",
  SniffSig.exactS [79, 84, 84, 79] "font/otf",                             -- OTTO
  SniffSig.exactS [116, 116, 99, 102] "font/collection",                   -- ttcf
  SniffSig.exactS [119, 79, 70, 70] "font/woff",                           -- wOFF
  SniffSig.exactS [119, 79, 70, 50] "font/woff2",                          -- wOF2
  SniffSig.exactS [31, 139, 8] "application/x-gzip",
  SniffSig.exactS [80, 75, 3, 4] "application/zip",                        -- PK..
  SniffSig.exactS [82, 97, 114, 33, 26, 7, 0] "application/x-rar-compressed",
  SniffSig.exactS [82, 97, 114, 33, 26, 7, 1, 0] "application/x-rar-compressed",
  SniffSig.exactS [0, 97, 115, 109] "application/wasm",                    -- \0asm
  SniffSig.textS]

/-- First matching signature in order. -/
def sniffFirst : List SniffSig → List Nat → List Nat → Option String
  | [], _, _ => none
  | s :: ss, d, t =>
    match sigMatch s d t with
    | some ct => some ct
    | none => sniffFirst ss d t

/-- net/http DetectContentType: truncate to 512 bytes, skip leading
whitespace for the signatures that ask for it, try each signature in
order, and default to the generic binary type. -/
def detectContentType (data0 : List Nat) : String :=
  let data := data0.take 512
  let trimmed := data.dropWhile isWS
  match sniffFirst sniffSignatures data trimmed with
  | some ct => ct
  | none => "application/octet-stream"

/-- The value zipFS.GetMime computes for an entry: the extension lookup,
and on a miss the content sniff of the first 512 decompressed bytes (an
io.ReadFull of a 512-byte buffer, short reads allowed). -/
def getMimeValue (f : GoZipFile) : String :=
  let ctype := mimeTypeByExt (filepathExt f.name)
  if ¬ ctype = String.mk [] then ctype
  else detectContentType (f.content.take 512)

/-- The response SendFile (and the file branch of RespondWith) produces:
the Content-Type and optional Content-Encoding headers, the bytes written
to the response before any error, and the error surfaced by http.Error
after those bytes when OpenRaw fails. -/
structure SendResult where
  contentType : String
  gzipEncoding : Bool
  body : List Nat
  ioErr : Option String
deriving Repr, DecidableEq

/-- The fixed ten-byte gzip container header SendFile writes before
opening the raw stream: magic 1f 8b, method 08, flags 00, the
modification time as uint32 little endian, then the XFL and OS bytes. -/
def gzipHeaderOf (f : GoZipFile) : List Nat :=
  [0x1f, 0x8b, 0x08, 0x00] ++ u32le (goUint32OfInt f.modifiedUnix) ++ [0x00, 0xff]

/-- SendFile of the unnamed variant (identical to the file branch of
RespondWith in main.go): plain decompressed copy unless the entry is
deflate-compressed and the Accept-Encoding header contains the substring
gzip, in which case the raw payload is wrapped in a gzip container; an
OpenRaw failure surfaces as a server error written after the container
header bytes already sent. -/
def sendFile (f : GoZipFile) (acceptEncoding : String) : SendResult :=
  let ct := getMimeValue f
  if ¬ (f.method = methodDeflate ∧ containsSub acceptEncoding.data ['g', 'z', 'i', 'p']) then
    { contentType := ct, gzipEncoding := false, body := f.content, ioErr := none }
  else
    match f.rawOpenErr with
    | some msg =>
      { contentType := ct, gzipEncoding := true, body := gzipHeaderOf f, ioErr := some msg }
    | none =>
      { contentType := ct, gzipEncoding := true,
        body := gzipHeaderOf f ++ f.raw ++ u32le f.crc32 ++
          u32le (f.uncompressedSize64 % 4294967296),
        ioErr := none }

/-- Router configuration: the index flag (empty string disables index
substitution). -/
structure Config where
  index : String
deriving Repr

/-- The externally observable action of one request: an error response
with a status and body, a permanent redirect, a directory listing, the
delivery of the file with the given archive index, or a panic from
dereferencing a nil zip.File pointer inside SendFile. -/
inductive ZAction where
  | errorNotFound (msg : String)
  | redirect (loc : String)
  | listing
  | file (idx : Nat)
  | panicked
deriving Repr, DecidableEq

/-- Dispatch of a resolved entry into SendFile: the delivery immediately
dereferences the raw metadata pointer, so a nil pointer panics. -/
def sendFileAction (e : ZipEntry) : ZAction :=
  match e.meta with
  | some i => ZAction.file i
  | none => ZAction.panicked

/-- The tail of ServeHTTP after the index-substitution attempt: the
canonicalizing redirect for a directory without a trailing slash, the
not-found response for a file with a trailing slash, then dispatch to the
listing or the file delivery. -/
def serveTail (reqPath : String) (entry : ZipEntry) : ZAction :=
  if entry.isDir ∧ ¬ goHasSuffixSlash reqPath then
    ZAction.redirect (reqPath ++ "/")
  else if goHasSuffixSlash reqPath ∧ ¬ entry.isDir then
    ZAction.errorNotFound notFoundMsg
  else if entry.isDir then ZAction.listing
  else sendFileAction entry

/-- The request-path normalization at the top of ServeHTTP: trim slashes
and map the empty result to ".". -/
def normPath (reqPath : String) : String :=
  let p0 := goTrimSlash reqPath
  if p0.data = [] then String.mk ['.'] else p0

/-- ServeHTTP of the unnamed variant, for an archive already obtained
from the registry.  The request path plays the role of both
PATH_TRANSLATED (resolution, suffix checks) and URL.Path (redirect
target), which agree for the paths this router canonicalizes. -/
def serveHTTP (cfg : Config) (files : List GoZipFile) (reqPath : String) : ZAction :=
  let p := normPath reqPath
  match findRaw files p with
  | Except.error e => ZAction.errorNotFound e
  | Except.ok entry =>
    if goHasSuffixSlash reqPath ∧ ¬ cfg.index.data = [] ∧ entry.isDir then
      match findRaw files (goPathJoin p cfg.index) with
      | Except.ok indexEntry => sendFileAction indexEntry
      | Except.error _ => serveTail reqPath entry
    else serveTail reqPath entry

/-- Shared state of the GetMime step machine for one fixed entry: the
mime-cache slot of that entry and an instrumentation counter of how many
times the sniffing step has run. -/
structure MimeState where
  cache : Option String
  sniffCount : Nat
deriving Repr, DecidableEq

/-- Control state of one thread running GetMime: before the read-locked
cache lookup, between the lookup and the write-locked store carrying the
computed value, or finished with the returned value. -/
inductive MimeTC where
  | start
  | toWrite (v : String)
  | done (v : String)
deriving Repr, DecidableEq

/-- Whether GetMime reaches the sniffing step for this entry: the
extension lookup yields nothing. -/
def mimeNeedsSniff (f : GoZipFile) : Bool :=
  mimeTypeByExt (filepathExt f.name) = String.mk []

/-- One atomic step of a thread running GetMime(f).  The first step is
the read-locked cache lookup; on a miss the local computation (extension
lookup, and the sniff when it yields nothing) is attached to that step,
since it touches no shared state.  The second step is the write-locked
store.  There is no recheck of the cache between the two. -/
def mimeThreadStep (f : GoZipFile) (s : MimeState) (t : MimeTC) : MimeState × MimeTC :=
  match t with
  | MimeTC.start =>
    match s.cache with
    | some v => (s, MimeTC.done v)
    | none =>
      let v := getMimeValue f
      if mimeNeedsSniff f then
        ({ s with sniffCount := s.sniffCount + 1 }, MimeTC.toWrite v)
      else (s, MimeTC.toWrite v)
  | MimeTC.toWrite v => ({ s with cache := some v }, MimeTC.done v)
  | MimeTC.done v => (s, MimeTC.done v)

/-- Interleaved execution of two threads both running GetMime(f); true
schedules thread zero. -/
def mimeRun (f : GoZipFile) : List Bool → MimeState × MimeTC × MimeTC → MimeState × MimeTC × MimeTC
  | [], st => st
  | true :: bs, (s, t0, t1) =>
    let r := mimeThreadStep f s t0
    mimeRun f bs (r.1, r.2, t1)
  | false :: bs, (s, t0, t1) =>
    let r := mimeThreadStep f s t1
    mimeRun f bs (r.1, t0, r.2)

/-- Initial state: empty cache slot, both threads before their lookup. -/
def mimeInit : MimeState × MimeTC × MimeTC :=
  ({ cache := none, sniffCount := 0 }, MimeTC.start, MimeTC.start)

/-- Shared state of the getArchive step machine for one fixed origin
path: the registry slot for that path and the number of zip.OpenReader
calls performed.  Opened indices are identified by their open sequence
number. -/
structure RegState where
  reg : Option Nat
  opens : Nat
deriving Repr, DecidableEq

/-- Control state of one thread running getArchive: before the
read-locked map lookup, between a successful open and the write-locked
store carrying the freshly opened index, or finished holding the index
the call returned. -/
inductive RegTC where
  | start
  | toStore (id : Nat)
  | done (ret : Nat)
deriving Repr, DecidableEq

/-- One atomic step of a thread running getArchive(path).  The first step
is the read-locked lookup, with the open (which touches no shared
registry state) attached on a miss; the second step is the write-locked
store, after which the thread returns its own index, not the stored
one. -/
def regThreadStep (s : RegState) (t : RegTC) : RegState × RegTC :=
  match t with
  | RegTC.start =>
    match s.reg with
    | some id => (s, RegTC.done id)
    | none => ({ s with opens := s.opens + 1 }, RegTC.toStore s.opens)
  | RegTC.toStore id => ({ s with reg := some id }, RegTC.done id)
  | RegTC.done id => (s, RegTC.done id)

/-- Interleaved execution of two threads both running getArchive for the
same origin path; true schedules thread zero. -/
def regRun : List Bool → RegState × RegTC × RegTC → RegState × RegTC × RegTC
  | [], st => st
  | true :: bs, (s, t0, t1) =>
    let r := regThreadStep s t0
    regRun bs (r.1, r.2, t1)
  | false :: bs, (s, t0, t1) =>
    let r := regThreadStep s t1
    regRun bs (r.1, t0, r.2)

/-- Initial registry state for an uncached origin. -/
def regInit : RegState × RegTC × RegTC :=
  ({ reg := none, opens := 0 }, RegTC.start, RegTC.start)

/-- Membership through sorted insertion. -/
theorem mem_insertLe (le : FileListEntry → FileListEntry → Bool) (a x : FileListEntry)
    (l : List FileListEntry) : x ∈ insertLe le a l ↔ x = a ∨ x ∈ l := by
  induction l with
  | nil => simp [insertLe]
  | cons b bs ih =>
    simp only [insertLe]
    split
    · simp [List.mem_cons]
    · simp only [List.mem_cons, ih]
      tauto

/-- The final sort of initFileList preserves membership. -/
theorem mem_sortFL (x : FileListEntry) (l : List FileListEntry) :
    x ∈ sortFL l ↔ x ∈ l := by
  induction l with
  | nil => simp [sortFL]
  | cons a as ih =>
    simp only [sortFL, List.foldr] at *
    rw [mem_insertLe]
    simp [ih]

/-- Every entry the initFileList loop appends carries its backing file. -/
theorem buildStep_file_isSome (st : BuildSt) (p : Nat × GoZipFile)
    (h : ∀ e ∈ st.fl, e.file.isSome) : ∀ e ∈ (buildStep st p).fl, e.file.isSome := by
  intro e he
  simp only [buildStep] at he
  split at he
  · exact h e he
  · split at he
    · exact h e he
    · simp only [List.mem_append, List.mem_singleton] at he
      rcases he with he | rfl
      · exact h e he
      · rfl

/-- Every entry of the initFileList loop output carries its backing
file. -/
theorem buildFold_file_isSome (files : List GoZipFile) :
    ∀ e ∈ (buildFold files).fl, e.file.isSome := by
  unfold buildFold
  generalize files.enum = l
  have base : ∀ e ∈ (⟨[], [], [], []⟩ : BuildSt).fl, e.file.isSome := by
    intro e he
    simp at he
  revert base
  generalize (⟨[], [], [], []⟩ : BuildSt) = st
  induction l generalizing st with
  | nil => intro base; simpa using base
  | cons p ps ih =>
    intro base
    exact ih (buildStep st p) (buildStep_file_isSome st p base)

/-- Synthesized directory entries are directories. -/
theorem synthDirs_isDir (st : BuildSt) : ∀ e ∈ synthDirs st, e.isDir = true := by
  intro e he
  simp only [synthDirs, List.mem_filterMap] at he
  obtain ⟨d, _, hd⟩ := he
  split at hd
  · exact absurd hd (by simp)
  · split at hd
    · exact absurd hd (by simp)
    · cases Option.some.inj hd
      rfl

/-- In the built file list, a non-directory entry always has a backing
file pointer. -/
theorem fileListOf_nonDir_isSome (files : List GoZipFile) (e : FileListEntry)
    (he : e ∈ fileListOf files) (hd : e.isDir = false) : e.file.isSome := by
  unfold fileListOf at he
  rw [mem_sortFL, List.mem_append] at he
  rcases he with he | he
  · exact buildFold_file_isSome files e he
  · exact absurd (synthDirs_isDir _ e he) (by simp [hd])

/-- openLookup only returns the synthetic root or a member of the file
list. -/
theorem openLookup_mem (fl : List FileListEntry) (n : List Char) (e : FileListEntry)
    (h : openLookup fl n = some e) : e = dotFile ∨ e ∈ fl := by
  simp only [openLookup] at h
  split at h
  · exact Or.inl (Option.some.inj h).symm
  · cases hf : List.find? (searchGE (zipSplitD n).1 (zipSplitD n).2) fl with
    | none => rw [hf] at h; exact absurd h (by simp)
    | some e0 =>
      rw [hf] at h
      have h2 : (if e0.name = n ∨ (e0.name.length = n.length + 1 ∧ e0.name.getLast? = some '/' ∧
          List.take n.length e0.name = n) then some e0 else none) = some e := h
      split at h2
      · cases Option.some.inj h2
        exact Or.inr (List.mem_of_find?_eq_some hf)
      · exact absurd h2 (by simp)

/-- A successfully resolved non-directory entry always carries its raw
zip.File metadata pointer. -/
theorem findRaw_nonDir_meta (files : List GoZipFile) (name : String) (e : ZipEntry)
    (h : findRaw files name = Except.ok e) (hd : e.isDir = false) : e.meta.isSome := by
  unfold findRaw at h
  split at h
  · exact absurd h (by simp)
  · cases hl : openLookup (fileListOf files) name.data with
    | none => rw [hl] at h; exact absurd h (by simp)
    | some e0 =>
      rw [hl] at h
      cases Except.ok.inj h
      rcases openLookup_mem _ _ _ hl with rfl | hmem
      · simp [dotFile] at hd
      · exact fileListOf_nonDir_isSome files e0 hmem hd

/-- A deflate-compressed entry used as a concrete witness input. -/
def exDeflFile : GoZipFile :=
  { name := "x.bin"
    method := 8
    crc32 := 3735928559
    uncompressedSize64 := 4294967300
    modifiedUnix := 1700000000
    raw := [1, 2, 3]
    content := [9, 9]
    rawOpenErr := none }

/-- A stored (uncompressed) entry used as a concrete witness input. -/
def exStoreFile : GoZipFile :=
  { exDeflFile with method := 0, name := "y.txt" }

/-- A deflate entry whose raw stream fails to open. -/
def exIOFile : GoZipFile :=
  { exDeflFile with rawOpenErr := some "disk error" }

/-- An entry with no recognized extension and empty content. -/
def exNoExtEmpty : GoZipFile :=
  { name := "data"
    method := 0
    crc32 := 0
    uncompressedSize64 := 0
    modifiedUnix := 0
    raw := []
    content := []
    rawOpenErr := none }

/-- An entry whose extension resolves in the builtin table. -/
def exCssFile : GoZipFile :=
  { exNoExtEmpty with name := "s.css" }

/-- C1: for a file entry delivered in passthrough-compressed mode, the
bytes written are exactly the fixed magic, method and flags bytes, the
modification timestamp as four little-endian bytes, two reserved bytes,
the raw still-compressed payload verbatim, and a trailer of the CRC-32
checksum and the uncompressed size modulo 2^32, each as four
little-endian bytes. -/
theorem c1_gzip_container_bytes (f : GoZipFile) (acc : String)
    (hm : f.method = methodDeflate)
    (hg : containsSub acc.data ['g', 'z', 'i', 'p'] = true)
    (hr : f.rawOpenErr = none) :
    (sendFile f acc).gzipEncoding = true ∧
    (sendFile f acc).body =
      [0x1f, 0x8b, 0x08, 0x00] ++ u32le (goUint32OfInt f.modifiedUnix) ++ [0x00, 0xff] ++
        f.raw ++ u32le f.crc32 ++ u32le (f.uncompressedSize64 % 4294967296) ∧
    (sendFile f acc).ioErr = none := by
  simp [sendFile, hm, hg, hr, gzipHeaderOf, List.append_assoc]

/-- Witness for c1 at a concrete deflate entry and Accept-Encoding. -/
theorem c1_gzip_container_bytes_witness :
    (sendFile exDeflFile "gzip, br").gzipEncoding = true ∧
    (sendFile exDeflFile "gzip, br").body =
      [0x1f, 0x8b, 0x08, 0x00] ++ u32le (goUint32OfInt exDeflFile.modifiedUnix) ++ [0x00, 0xff] ++
        exDeflFile.raw ++ u32le exDeflFile.crc32 ++
        u32le (exDeflFile.uncompressedSize64 % 4294967296) ∧
    (sendFile exDeflFile "gzip, br").ioErr = none :=
  c1_gzip_container_bytes exDeflFile "gzip, br" rfl (by decide) rfl

/-- C2: delivery uses passthrough-compressed mode exactly when the entry
is deflate-compressed and the Accept-Encoding header contains gzip; in
every other case the decompressed bytes are streamed and no
Content-Encoding header is set. -/
theorem c2_mode_selection (f : GoZipFile) (acc : String) :
    ((sendFile f acc).gzipEncoding = true ↔
      (f.method = methodDeflate ∧ containsSub acc.data ['g', 'z', 'i', 'p'] = true)) ∧
    (¬ (f.method = methodDeflate ∧ containsSub acc.data ['g', 'z', 'i', 'p'] = true) →
      (sendFile f acc).gzipEncoding = false ∧ (sendFile f acc).body = f.content ∧
        (sendFile f acc).ioErr = none) := by
  by_cases h : f.method = methodDeflate ∧ containsSub acc.data ['g', 'z', 'i', 'p'] = true
  · cases hr : f.rawOpenErr with
    | none => simp [sendFile, h, hr]
    | some m => simp [sendFile, h, hr]
  · simp [sendFile, h]

/-- Witness for c2 at a stored entry: plain mode despite gzip acceptance. -/
theorem c2_mode_selection_witness :
    (sendFile exStoreFile "gzip").gzipEncoding = false ∧
    (sendFile exStoreFile "gzip").body = exStoreFile.content ∧
    (sendFile exStoreFile "gzip").ioErr = none :=
  (c2_mode_selection exStoreFile "gzip").2 (by decide)

/-- Counterexample for C9: when OpenRaw fails, the ten container header
bytes have already been written to the response before the error is
surfaced, so the error response is not preceded by an empty body. -/
theorem c9_counterexample :
    (sendFile exIOFile "gzip").ioErr = some "disk error" ∧
    ¬ (sendFile exIOFile "gzip").body = [] ∧
    (sendFile exIOFile "gzip").body = gzipHeaderOf exIOFile := by
  decide

/-- C9 (amended): when opening the raw stream fails in passthrough mode,
the delivery surfaces the error as a server-error response for that
request; the fixed ten-byte container header has already been written
before the open was attempted, and no payload or trailer bytes follow. -/
theorem c9_open_failure (f : GoZipFile) (acc : String) (msg : String)
    (hm : f.method = methodDeflate)
    (hg : containsSub acc.data ['g', 'z', 'i', 'p'] = true)
    (hr : f.rawOpenErr = some msg) :
    (sendFile f acc).ioErr = some msg ∧
    (sendFile f acc).body = gzipHeaderOf f ∧
    (sendFile f acc).gzipEncoding = true := by
  simp [sendFile, hm, hg, hr]

/-- Witness for c9 at a concrete failing entry. -/
theorem c9_open_failure_witness :
    (sendFile exIOFile "gzip").ioErr = some "disk error" ∧
    (sendFile exIOFile "gzip").body = gzipHeaderOf exIOFile ∧
    (sendFile exIOFile "gzip").gzipEncoding = true :=
  c9_open_failure exIOFile "gzip" "disk error" rfl (by decide) rfl

/-- Configuration with index substitution disabled. -/
def cfgNoIndex : Config := { index := "" }

/-- Configuration with the customary index file name. -/
def cfgIndexHtml : Config := { index := "index.html" }

/-- A one-file archive whose docs directory is synthesized. -/
def exArcDocs : List GoZipFile :=
  [{ name := "docs/readme.txt"
     method := 8
     crc32 := 7
     uncompressedSize64 := 2
     modifiedUnix := 5
     raw := [3, 4]
     content := [104, 105]
     rawOpenErr := none }]

/-- An archive holding an index file and a sibling inside directory a. -/
def exArcIndex : List GoZipFile :=
  [{ name := "a/index.html"
     method := 8
     crc32 := 1
     uncompressedSize64 := 1
     modifiedUnix := 0
     raw := [1]
     content := [2]
     rawOpenErr := none },
   { name := "a/other.txt"
     method := 0
     crc32 := 0
     uncompressedSize64 := 0
     modifiedUnix := 0
     raw := []
     content := []
     rawOpenErr := none }]

/-- An archive in which a/index.html is a synthesized directory (it only
exists as an ancestor of a deeper file). -/
def exArcNested : List GoZipFile :=
  [{ name := "a/index.html/x.txt"
     method := 8
     crc32 := 1
     uncompressedSize64 := 3
     modifiedUnix := 100
     raw := [1, 2]
     content := [10, 20, 30]
     rawOpenErr := none }]

/-- C3: a request whose path resolves to a directory entry and whose
original path lacks a trailing slash yields exactly a permanent redirect
to the same path with a trailing slash appended, never a listing or file
body. -/
theorem c3_dir_redirect (cfg : Config) (files : List GoZipFile) (reqPath : String)
    (e : ZipEntry) (hres : findRaw files (normPath reqPath) = Except.ok e)
    (hdir : e.isDir = true) (hslash : goHasSuffixSlash reqPath = false) :
    serveHTTP cfg files reqPath = ZAction.redirect (reqPath ++ "/") := by
  simp only [serveHTTP]
  rw [hres]
  simp [hslash, hdir, serveTail]

/-- Witness for c3: requesting the synthesized docs directory without a
trailing slash redirects. -/
theorem c3_dir_redirect_witness :
    findRaw exArcDocs (normPath "/docs") = Except.ok { isDir := true, meta := none } ∧
    serveHTTP cfgNoIndex exArcDocs "/docs" = ZAction.redirect ("/docs" ++ "/") :=
  ⟨by rfl,
   c3_dir_redirect cfgNoIndex exArcDocs "/docs" { isDir := true, meta := none }
     (by rfl) rfl rfl⟩

/-- C4: a slash-terminated request resolving to a directory, with an
index file name configured and directory slash index resolving to a file
entry, serves that file in place of a listing. -/
theorem c4_index_substitution (cfg : Config) (files : List GoZipFile) (reqPath : String)
    (e ie : ZipEntry)
    (hidx : ¬ cfg.index.data = [])
    (hslash : goHasSuffixSlash reqPath = true)
    (hres : findRaw files (normPath reqPath) = Except.ok e)
    (hdir : e.isDir = true)
    (hie : findRaw files (goPathJoin (normPath reqPath) cfg.index) = Except.ok ie)
    (hfile : ie.isDir = false) :
    ∃ i, ie.meta = some i ∧ serveHTTP cfg files reqPath = ZAction.file i := by
  have hsome := findRaw_nonDir_meta files _ ie hie hfile
  obtain ⟨i, hi⟩ := Option.isSome_iff_exists.mp hsome
  refine ⟨i, hi, ?_⟩
  simp only [serveHTTP]
  rw [hres]
  simp [hslash, hdir, hidx, hie, sendFileAction, hi]

/-- Witness for c4: the canonical directory request serves the index
file, not a listing. -/
theorem c4_index_substitution_witness :
    findRaw exArcIndex (normPath "/a/") = Except.ok { isDir := true, meta := none } ∧
    findRaw exArcIndex (goPathJoin (normPath "/a/") cfgIndexHtml.index) =
      Except.ok { isDir := false, meta := some 0 } ∧
    ∃ i, ({ isDir := false, meta := some 0 } : ZipEntry).meta = some i ∧
      serveHTTP cfgIndexHtml exArcIndex "/a/" = ZAction.file i :=
  ⟨by rfl, by rfl,
   c4_index_substitution cfgIndexHtml exArcIndex "/a/" { isDir := true, meta := none }
     { isDir := false, meta := some 0 } (by decide) rfl (by rfl) rfl (by rfl) rfl⟩

/-- C5: a slash-terminated request resolving to a file entry yields the
literal not-found response, never a file body or a fatal error. -/
theorem c5_file_trailing_slash (cfg : Config) (files : List GoZipFile) (reqPath : String)
    (e : ZipEntry)
    (hslash : goHasSuffixSlash reqPath = true)
    (hres : findRaw files (normPath reqPath) = Except.ok e)
    (hfile : e.isDir = false) :
    serveHTTP cfg files reqPath = ZAction.errorNotFound notFoundMsg := by
  simp only [serveHTTP]
  rw [hres]
  simp [hslash, hfile, serveTail]

/-- Witness for c5: a file requested with a trailing slash is a
not-found response even with an index configured. -/
theorem c5_file_trailing_slash_witness :
    findRaw exArcDocs (normPath "/docs/readme.txt/") =
      Except.ok { isDir := false, meta := some 0 } ∧
    serveHTTP cfgIndexHtml exArcDocs "/docs/readme.txt/" =
      ZAction.errorNotFound notFoundMsg :=
  ⟨by rfl,
   c5_file_trailing_slash cfgIndexHtml exArcDocs "/docs/readme.txt/"
     { isDir := false, meta := some 0 } rfl (by rfl) rfl⟩

/-- Counterexample for C10: with index substitution configured, a request
for a directory that contains the index name only as a synthesized
subdirectory passes a nil-metadata directory entry to SendFile, whose
dereference panics; so SendFile's metadata dereference is not
unconditionally safe. -/
theorem c10_counterexample :
    serveHTTP cfgIndexHtml exArcNested "/a/" = ZAction.panicked := by
  rfl

/-- C10 (amended): every resolved entry whose opened handle is not a
directory carries a non-nil raw metadata pointer, so the nil-metadata
guard in the non-directory dispatch branch is unreachable and only
directory entries may carry a nil pointer; the unsafe case is only a
directory entry reaching SendFile through index substitution. -/
theorem c10_nonDir_meta (files : List GoZipFile) (name : String) (e : ZipEntry)
    (h : findRaw files name = Except.ok e) (hd : e.isDir = false) :
    e.meta.isSome :=
  findRaw_nonDir_meta files name e h hd

/-- Witness for c10 at a concrete file entry. -/
theorem c10_nonDir_meta_witness :
    findRaw exArcDocs "docs/readme.txt" = Except.ok { isDir := false, meta := some 0 } ∧
    ({ isDir := false, meta := some 0 } : ZipEntry).meta.isSome :=
  ⟨by rfl,
   c10_nonDir_meta exArcDocs "docs/readme.txt" { isDir := false, meta := some 0 }
     (by rfl) rfl⟩

/-- Counterexample for C6: a file with no recognized extension and no
content bytes resolves to the text type, not to the generic binary type
the claim prescribes for the no-bytes case. -/
theorem c6_counterexample :
    mimeTypeByExt (filepathExt exNoExtEmpty.name) = String.mk [] ∧
    exNoExtEmpty.content = [] ∧
    getMimeValue exNoExtEmpty = "text/plain; charset=utf-8" ∧
    ¬ getMimeValue exNoExtEmpty = "application/octet-stream" := by
  decide

/-- C6 (amended): content-type resolution first consults the extension
table, and only on a miss sniffs the first up-to-512 decompressed bytes;
the sniff falls back to the generic binary type exactly when no signature
matches, while empty content matches the text heuristic and yields the
plain-text type. -/
theorem c6_resolution_order (f : GoZipFile) :
    (¬ mimeTypeByExt (filepathExt f.name) = String.mk [] →
      getMimeValue f = mimeTypeByExt (filepathExt f.name)) ∧
    (mimeTypeByExt (filepathExt f.name) = String.mk [] →
      getMimeValue f = detectContentType (f.content.take 512)) ∧
    (mimeTypeByExt (filepathExt f.name) = String.mk [] →
      sniffFirst sniffSignatures (f.content.take 512)
        ((f.content.take 512).dropWhile isWS) = none →
      getMimeValue f = "application/octet-stream") ∧
    (mimeTypeByExt (filepathExt f.name) = String.mk [] → f.content = [] →
      getMimeValue f = "text/plain; charset=utf-8") := by
  have hsniff : mimeTypeByExt (filepathExt f.name) = String.mk [] →
      getMimeValue f = detectContentType (f.content.take 512) := by
    intro h
    simp [getMimeValue, h]
  refine ⟨?_, hsniff, ?_, ?_⟩
  · intro h
    simp [getMimeValue, h]
  · intro h hs
    rw [hsniff h]
    simp only [detectContentType, List.take_take, min_self]
    rw [hs]
  · intro h hc
    rw [hsniff h, hc]
    decide

/-- Witness for c6 at a concrete table hit and a concrete empty file. -/
theorem c6_resolution_order_witness :
    getMimeValue exCssFile = mimeTypeByExt (filepathExt exCssFile.name) ∧
    getMimeValue exNoExtEmpty = "text/plain; charset=utf-8" :=
  ⟨(c6_resolution_order exCssFile).1 (by decide),
   (c6_resolution_order exNoExtEmpty).2.2.2 (by decide) rfl⟩

/-- Value correctness of a GetMime thread control state: any carried
value equals the deterministic resolution result. -/
def tcVal (f : GoZipFile) : MimeTC → Prop
  | MimeTC.start => True
  | MimeTC.toWrite v => v = getMimeValue f
  | MimeTC.done v => v = getMimeValue f

/-- One when the thread has passed its cache lookup, zero before. -/
def tcCount : MimeTC → Nat
  | MimeTC.start => 0
  | MimeTC.toWrite _ => 1
  | MimeTC.done _ => 1

/-- Invariant of the two-thread GetMime machine: the cache slot is empty
or holds the deterministic value, both threads carry only that value,
and the sniff counter is bounded by the number of lookups performed. -/
def MimeInv (f : GoZipFile) (st : MimeState × MimeTC × MimeTC) : Prop :=
  (st.1.cache = none ∨ st.1.cache = some (getMimeValue f)) ∧
  tcVal f st.2.1 ∧ tcVal f st.2.2 ∧
  st.1.sniffCount ≤ tcCount st.2.1 + tcCount st.2.2

/-- One thread step preserves the cache-value part, keeps the stepped
thread value-correct, and keeps the sniff counter bounded (k stands for
the other thread's lookup count). -/
theorem mimeStep_inv (f : GoZipFile) (s : MimeState) (t : MimeTC) (k : Nat)
    (hc : s.cache = none ∨ s.cache = some (getMimeValue f))
    (ht : tcVal f t)
    (hn : s.sniffCount ≤ tcCount t + k) :
    ((mimeThreadStep f s t).1.cache = none ∨
      (mimeThreadStep f s t).1.cache = some (getMimeValue f)) ∧
    tcVal f (mimeThreadStep f s t).2 ∧
    (mimeThreadStep f s t).1.sniffCount ≤ tcCount (mimeThreadStep f s t).2 + k := by
  have hn' : s.sniffCount ≤ tcCount t + k := hn
  cases t with
  | start =>
    simp only [tcCount] at hn'
    cases hs : s.cache with
    | some v =>
      have hv : v = getMimeValue f := by
        rcases hc with h | h
        · rw [hs] at h; cases h
        · rw [hs] at h; exact Option.some.inj h
      simp only [mimeThreadStep, hs]
      refine ⟨Or.inr (by rw [hv]), hv, ?_⟩
      show s.sniffCount ≤ tcCount (MimeTC.done v) + k
      simp only [tcCount]
      omega
    | none =>
      simp only [mimeThreadStep, hs]
      by_cases hb : mimeNeedsSniff f = true
      · rw [if_pos hb]
        refine ⟨Or.inl rfl, rfl, ?_⟩
        show s.sniffCount + 1 ≤ tcCount (MimeTC.toWrite (getMimeValue f)) + k
        simp only [tcCount]
        omega
      · rw [if_neg hb]
        refine ⟨Or.inl hs, rfl, ?_⟩
        show s.sniffCount ≤ tcCount (MimeTC.toWrite (getMimeValue f)) + k
        simp only [tcCount]
        omega
  | toWrite v =>
    have hv : v = getMimeValue f := ht
    simp only [tcCount] at hn'
    simp only [mimeThreadStep]
    refine ⟨Or.inr (by rw [hv]), hv, ?_⟩
    show s.sniffCount ≤ tcCount (MimeTC.done v) + k
    simp only [tcCount]
    omega
  | done v =>
    simp only [mimeThreadStep]
    exact ⟨hc, ht, hn⟩

/-- The invariant holds along every schedule. -/
theorem mimeRun_inv (f : GoZipFile) (sched : List Bool) (st : MimeState × MimeTC × MimeTC)
    (h : MimeInv f st) : MimeInv f (mimeRun f sched st) := by
  induction sched generalizing st with
  | nil => simpa [mimeRun] using h
  | cons b bs ih =>
    obtain ⟨s, t0, t1⟩ := st
    obtain ⟨hc, h0, h1, hn⟩ := h
    have hn' : s.sniffCount ≤ tcCount t0 + tcCount t1 := hn
    cases b with
    | true =>
      have hstep := mimeStep_inv f s t0 (tcCount t1) hc h0 hn'
      exact ih _ ⟨hstep.1, hstep.2.1, h1, hstep.2.2⟩
    | false =>
      have hstep := mimeStep_inv f s t1 (tcCount t0) hc h1 (by omega)
      refine ih _ ⟨hstep.1, h0, hstep.2.1, ?_⟩
      show (mimeThreadStep f s t1).1.sniffCount ≤
        tcCount t0 + tcCount (mimeThreadStep f s t1).2
      have hx := hstep.2.2
      omega

/-- Each thread performs at most one lookup. -/
theorem tcCount_le_one (t : MimeTC) : tcCount t ≤ 1 := by
  cases t <;> simp [tcCount]

/-- Counterexample for C7: under the concrete racy schedule of two
first-time resolutions of the same entry, the sniffing step runs twice,
so it does not run at most once per entry for the process lifetime. -/
theorem c7_counterexample :
    (mimeRun exNoExtEmpty [true, false, true, false] mimeInit).1.sniffCount = 2 ∧
    ¬ (mimeRun exNoExtEmpty [true, false, true, false] mimeInit).1.sniffCount ≤ 1 := by
  decide

/-- C7 (amended): resolution is memoized and value-stable: every
finished resolution returns the same deterministic string, the cache
slot never holds a different value (so a cached value is never replaced
by a different one), each racing first-time caller sniffs at most once,
and under a sequential schedule the sniff runs at most once in total. -/
theorem c7_memoization (f : GoZipFile) (sched : List Bool) :
    ((mimeRun f sched mimeInit).1.cache = none ∨
      (mimeRun f sched mimeInit).1.cache = some (getMimeValue f)) ∧
    (∀ v, (mimeRun f sched mimeInit).2.1 = MimeTC.done v → v = getMimeValue f) ∧
    (∀ v, (mimeRun f sched mimeInit).2.2 = MimeTC.done v → v = getMimeValue f) ∧
    (mimeRun f sched mimeInit).1.sniffCount ≤ 2 ∧
    (mimeRun f [true, true, false, false] mimeInit).1.sniffCount ≤ 1 := by
  obtain ⟨hc, h0, h1, hn⟩ :=
    mimeRun_inv f sched mimeInit (by simp [MimeInv, mimeInit, tcVal, tcCount])
  refine ⟨hc, ?_, ?_, ?_, ?_⟩
  · intro v hv
    rw [hv] at h0
    exact h0
  · intro v hv
    rw [hv] at h1
    exact h1
  · have b0 := tcCount_le_one (mimeRun f sched mimeInit).2.1
    have b1 := tcCount_le_one (mimeRun f sched mimeInit).2.2
    omega
  · by_cases hb : mimeNeedsSniff f = true
    · simp [mimeRun, mimeThreadStep, mimeInit, hb]
    · simp [mimeRun, mimeThreadStep, mimeInit, hb]

/-- Witness for c7 at a concrete entry and schedule. -/
theorem c7_memoization_witness :
    ((mimeRun exNoExtEmpty [true, false, true, false] mimeInit).1.cache = none ∨
      (mimeRun exNoExtEmpty [true, false, true, false] mimeInit).1.cache =
        some (getMimeValue exNoExtEmpty)) ∧
    "text/plain; charset=utf-8" = getMimeValue exNoExtEmpty ∧
    (mimeRun exNoExtEmpty [true, false, true, false] mimeInit).1.sniffCount ≤ 2 := by
  have h := c7_memoization exNoExtEmpty [true, false, true, false]
  exact ⟨h.1, h.2.1 "text/plain; charset=utf-8" (by decide), h.2.2.2.1⟩

/-- C8: evaluating getArchive's lock discipline.  Under the racy schedule
both first-time callers miss the cache, both open the archive, the second
store overwrites the first, and the callers finish holding different
indices: two opens are retained observable, contradicting the
at-most-one-open contract; the sequential schedule shows the cached path
performs a single open returned to both callers. -/
theorem c8_registry_race_eval :
    regRun [true, false, true, false] regInit =
      ({ reg := some 1, opens := 2 }, RegTC.done 0, RegTC.done 1) ∧
    ¬ (regRun [true, false, true, false] regInit).1.opens ≤ 1 ∧
    ¬ ((regRun [true, false, true, false] regInit).2.1 =
        (regRun [true, false, true, false] regInit).2.2) ∧
    regRun [true, true, false] regInit =
      ({ reg := some 0, opens := 1 }, RegTC.done 0, RegTC.done 0) := by
  decide
